import Mathlib

/-!
Verification of the resilient-fetch core of the football-predictor repository.

Each component is shallowly embedded from its Python source:

* `CircuitBreaker`   from `apps/scraper/utils/error_handling/circuit_breaker.py`
* `TokenBucketRateLimiter` from `apps/scraper/utils/rate_limiter.py`
* `ProxyInfo`        from `apps/scraper/utils/proxy.py`
* retry strategies   from `apps/scraper/utils/error_handling/retry_strategy.py`
* `ErrorClassifier`  from `apps/scraper/utils/error_handling/error_classifier.py`
* `CheckpointManager` from `apps/scraper/utils/incremental/checkpoint_manager.py`

Wall-clock readings (`time.time()` / `datetime.now()`) are modelled as rational
numbers supplied explicitly to each state-mutating operation; Python floats are
modelled as rationals.  Randomness (`random.uniform`) is modelled by passing the
sampled value as an explicit argument.
-/

/-! ### Circuit breaker (circuit_breaker.py) -/

/-- The three states of `CircuitState` in `circuit_breaker.py`. -/
inductive CircuitState where
  | CLOSED
  | OPEN
  | HALF_OPEN
deriving DecidableEq, Repr

/-- The `CircuitBreakerStats` dataclass. -/
structure CircuitBreakerStats where
  total_requests : ℕ := 0
  successful_requests : ℕ := 0
  failed_requests : ℕ := 0
  rejected_requests : ℕ := 0
  last_failure_time : Option ℚ := none
  last_success_time : Option ℚ := none
  consecutive_failures : ℕ := 0
  consecutive_successes : ℕ := 0
deriving DecidableEq, Repr

/-- The `CircuitBreaker` class.  The `name` and `expected_exception`
attributes play no role in the state machine and are omitted. -/
structure CircuitBreaker where
  failure_threshold : ℕ
  success_threshold : ℕ
  timeout : ℚ
  state : CircuitState
  stats : CircuitBreakerStats
  opened_at : Option ℚ
deriving DecidableEq, Repr

/-- `CircuitBreaker.__init__`: fresh breaker in `CLOSED` with zero stats. -/
def CircuitBreaker.init (failure_threshold success_threshold : ℕ) (timeout : ℚ) :
    CircuitBreaker :=
  { failure_threshold := failure_threshold
    success_threshold := success_threshold
    timeout := timeout
    state := .CLOSED
    stats := {}
    opened_at := none }

/-- `CircuitBreaker._open`: move to `OPEN`, stamping `opened_at = time.time()`. -/
def CircuitBreaker.openCircuit (b : CircuitBreaker) (now : ℚ) : CircuitBreaker :=
  { b with state := .OPEN, opened_at := some now }

/-- `CircuitBreaker._close`: back to `CLOSED`, clearing `opened_at` and both
consecutive counters. -/
def CircuitBreaker.closeCircuit (b : CircuitBreaker) : CircuitBreaker :=
  { b with
    state := .CLOSED
    opened_at := none
    stats := { b.stats with consecutive_failures := 0, consecutive_successes := 0 } }

/-- `CircuitBreaker._can_attempt`.  In `OPEN`, the Python guard is
`if self.opened_at and (time.time() - self.opened_at) >= self.timeout`; the
truthiness test on the float `opened_at` is modelled by the `t ≠ 0` conjunct.
Returns the admission decision together with the (possibly `HALF_OPEN`)
updated breaker. -/
def CircuitBreaker.canAttempt (b : CircuitBreaker) (now : ℚ) : Bool × CircuitBreaker :=
  match b.state with
  | .CLOSED => (true, b)
  | .OPEN =>
    match b.opened_at with
    | some t =>
      if t ≠ 0 ∧ b.timeout ≤ now - t then (true, { b with state := .HALF_OPEN })
      else (false, b)
    | none => (false, b)
  | .HALF_OPEN => (true, b)

/-- `CircuitBreaker._on_success`. -/
def CircuitBreaker.onSuccess (b : CircuitBreaker) (now : ℚ) : CircuitBreaker :=
  let st := { b.stats with
    successful_requests := b.stats.successful_requests + 1
    consecutive_successes := b.stats.consecutive_successes + 1
    consecutive_failures := 0
    last_success_time := some now }
  let b1 := { b with stats := st }
  if b1.state = .HALF_OPEN ∧ b1.success_threshold ≤ st.consecutive_successes then
    b1.closeCircuit
  else b1

/-- `CircuitBreaker._on_failure`. -/
def CircuitBreaker.onFailure (b : CircuitBreaker) (now : ℚ) : CircuitBreaker :=
  let st := { b.stats with
    failed_requests := b.stats.failed_requests + 1
    consecutive_failures := b.stats.consecutive_failures + 1
    consecutive_successes := 0
    last_failure_time := some now }
  let b1 := { b with stats := st }
  if b1.state = .CLOSED then
    if b1.failure_threshold ≤ st.consecutive_failures then b1.openCircuit now else b1
  else if b1.state = .HALF_OPEN then b1.openCircuit now
  else b1

/-- Outcome of `CircuitBreaker.call`: `rejected` is the distinct
`CircuitBreakerError` raised without invoking the wrapped operation;
`succeeded`/`failed` mean the operation was invoked and its result
(or exception) propagated. -/
inductive CallResult where
  | rejected
  | succeeded
  | failed
deriving DecidableEq, Repr

/-- `CircuitBreaker.call`.  `opOutcome` is whether the wrapped operation would
succeed if invoked; it is not consulted when the call is rejected, mirroring
that a rejected call never invokes the operation. -/
def CircuitBreaker.call (b : CircuitBreaker) (now : ℚ) (opOutcome : Bool) :
    CallResult × CircuitBreaker :=
  let p := b.canAttempt now
  if p.1 then
    let b2 := { p.2 with stats := { p.2.stats with total_requests := p.2.stats.total_requests + 1 } }
    if opOutcome then (.succeeded, b2.onSuccess now) else (.failed, b2.onFailure now)
  else
    (.rejected, { p.2 with stats := { p.2.stats with rejected_requests := p.2.stats.rejected_requests + 1 } })

/-- A sequence of guarded calls whose wrapped operation always fails, at the
given wall-clock times. -/
def CircuitBreaker.runFailures (b : CircuitBreaker) (ts : List ℚ) : CircuitBreaker :=
  ts.foldl (fun b t => (b.call t false).2) b

lemma CircuitBreaker.call_false_closed_stay (b : CircuitBreaker) (t : ℚ)
    (hst : b.state = .CLOSED)
    (hlt : b.stats.consecutive_failures + 1 < b.failure_threshold) :
    (b.call t false).2 =
      { b with stats := { b.stats with
          total_requests := b.stats.total_requests + 1
          failed_requests := b.stats.failed_requests + 1
          consecutive_failures := b.stats.consecutive_failures + 1
          consecutive_successes := 0
          last_failure_time := some t } } := by
  have h2 : ¬ b.failure_threshold ≤ b.stats.consecutive_failures + 1 := by omega
  simp [call, canAttempt, onFailure, hst, h2]

lemma CircuitBreaker.call_false_closed_opens (b : CircuitBreaker) (t : ℚ)
    (hst : b.state = .CLOSED)
    (hge : b.failure_threshold ≤ b.stats.consecutive_failures + 1) :
    (b.call t false).2 =
      { b with
        state := .OPEN
        opened_at := some t
        stats := { b.stats with
          total_requests := b.stats.total_requests + 1
          failed_requests := b.stats.failed_requests + 1
          consecutive_failures := b.stats.consecutive_failures + 1
          consecutive_successes := 0
          last_failure_time := some t } } := by
  simp [call, canAttempt, onFailure, openCircuit, hst, hge]

lemma CircuitBreaker.runFailures_closed (ts : List ℚ) (b : CircuitBreaker)
    (hst : b.state = .CLOSED)
    (hlt : b.stats.consecutive_failures + ts.length < b.failure_threshold) :
    (b.runFailures ts).state = .CLOSED ∧
    (b.runFailures ts).stats.consecutive_failures
      = b.stats.consecutive_failures + ts.length ∧
    (b.runFailures ts).failure_threshold = b.failure_threshold ∧
    (b.runFailures ts).success_threshold = b.success_threshold ∧
    (b.runFailures ts).timeout = b.timeout := by
  induction ts generalizing b with
  | nil => simp [runFailures, hst]
  | cons t ts ih =>
    have hlt1 : b.stats.consecutive_failures + 1 < b.failure_threshold := by
      simp only [List.length_cons] at hlt; omega
    have hstep := b.call_false_closed_stay t hst hlt1
    have h1 : (b.call t false).2.state = .CLOSED := by rw [hstep]; exact hst
    have h2 : (b.call t false).2.stats.consecutive_failures
        = b.stats.consecutive_failures + 1 := by rw [hstep]
    have h3 : (b.call t false).2.failure_threshold = b.failure_threshold := by rw [hstep]
    have h4 : (b.call t false).2.success_threshold = b.success_threshold := by rw [hstep]
    have h5 : (b.call t false).2.timeout = b.timeout := by rw [hstep]
    have hrec := ih (b.call t false).2 h1
      (by rw [h2, h3]; simp only [List.length_cons] at hlt; omega)
    simp only [runFailures, List.foldl_cons] at hrec ⊢
    refine ⟨hrec.1, ?_, ?_, ?_, ?_⟩
    · rw [hrec.2.1, h2]; simp only [List.length_cons]; omega
    · rw [hrec.2.2.1, h3]
    · rw [hrec.2.2.2.1, h4]
    · rw [hrec.2.2.2.2, h5]

lemma CircuitBreaker.call_open_rejects (b : CircuitBreaker) (now : ℚ) (o : Bool) (tf : ℚ)
    (hst : b.state = .OPEN) (hop : b.opened_at = some tf)
    (hlt : now - tf < b.timeout) :
    (b.call now o).1 = .rejected ∧ (b.call now o).2.state = .OPEN := by
  have hcond : ¬ (tf ≠ 0 ∧ b.timeout ≤ now - tf) := by
    rintro ⟨-, h⟩; exact absurd hlt (not_lt.mpr h)
  constructor
  · simp [call, canAttempt, hst, hop, hcond]
  · simp [call, canAttempt, hst, hop, hcond]

lemma CircuitBreaker.call_open_halfOpen (b : CircuitBreaker) (now : ℚ) (o : Bool) (tf : ℚ)
    (hst : b.state = .OPEN) (hop : b.opened_at = some tf)
    (htf : tf ≠ 0) (hge : b.timeout ≤ now - tf) :
    (b.call now o).1 ≠ .rejected ∧ (b.canAttempt now).2.state = .HALF_OPEN := by
  have hcond : tf ≠ 0 ∧ b.timeout ≤ now - tf := ⟨htf, hge⟩
  constructor
  · cases o <;> simp [call, canAttempt, hst, hop, hcond]
  · simp [canAttempt, hst, hop, hcond]

/-- Claim C1: starting from a fresh `CLOSED` breaker, after exactly
`failure_threshold` consecutive failures recorded through `call` the state is
`OPEN` with `opened_at` stamped at the last failure; while less than
`timeout` (the `open_timeout`) has elapsed since opening, the next call is
rejected with the distinct breaker-open error and the breaker stays `OPEN`;
once at least `timeout` has elapsed, the next call flips the breaker to
`HALF_OPEN` and does invoke the operation. -/
theorem circuitBreaker_opens_rejects_then_halfOpen
    (f s : ℕ) (τ : ℚ) (ts : List ℚ) (tf : ℚ)
    (hlen : ts.length + 1 = f) (htf : 0 < tf) :
    ((CircuitBreaker.init f s τ).runFailures (ts ++ [tf])).state = .OPEN ∧
    ((CircuitBreaker.init f s τ).runFailures (ts ++ [tf])).opened_at = some tf ∧
    (∀ now o, now - tf < τ →
      (((CircuitBreaker.init f s τ).runFailures (ts ++ [tf])).call now o).1 = .rejected ∧
      (((CircuitBreaker.init f s τ).runFailures (ts ++ [tf])).call now o).2.state = .OPEN) ∧
    (∀ now o, τ ≤ now - tf →
      (((CircuitBreaker.init f s τ).runFailures (ts ++ [tf])).call now o).1 ≠ .rejected ∧
      (((CircuitBreaker.init f s τ).runFailures (ts ++ [tf])).canAttempt now).2.state
        = .HALF_OPEN) := by
  set b0 := CircuitBreaker.init f s τ with hb0
  have hst0 : b0.state = .CLOSED := rfl
  have hcf0 : b0.stats.consecutive_failures = 0 := rfl
  have hft0 : b0.failure_threshold = f := rfl
  have hto0 : b0.timeout = τ := rfl
  have hlt : b0.stats.consecutive_failures + ts.length < b0.failure_threshold := by
    rw [hcf0, hft0]; omega
  obtain ⟨hst1, hcf1, hft1, _, hto1⟩ := CircuitBreaker.runFailures_closed ts b0 hst0 hlt
  set b1 := b0.runFailures ts with hb1
  have hge : b1.failure_threshold ≤ b1.stats.consecutive_failures + 1 := by
    rw [hcf1, hft1, hcf0, hft0]; omega
  have hstep := b1.call_false_closed_opens tf hst1 hge
  have hsplit : b0.runFailures (ts ++ [tf]) = (b1.call tf false).2 := by
    rw [hb1]
    simp only [CircuitBreaker.runFailures, List.foldl_append, List.foldl_cons, List.foldl_nil]
  rw [hsplit, hstep]
  have hto2 : b1.timeout = τ := by rw [hto1, hto0]
  refine ⟨rfl, rfl, ?_, ?_⟩
  · intro now o hnow
    exact CircuitBreaker.call_open_rejects _ now o tf rfl rfl (by simpa [hto2] using hnow)
  · intro now o hnow
    exact CircuitBreaker.call_open_halfOpen _ now o tf rfl rfl (ne_of_gt htf)
      (by simpa [hto2] using hnow)

/-- Witness for C1 at `failure_threshold = 2`, `timeout = 10`: two failures at
times 1 and 5 open the breaker; a call at time 7 is rejected while one at
time 20 is admitted into `HALF_OPEN`. -/
theorem circuitBreaker_opens_rejects_then_halfOpen_witness :
    ((CircuitBreaker.init 2 1 10).runFailures ([1] ++ [5])).state = .OPEN ∧
    (((CircuitBreaker.init 2 1 10).runFailures ([1] ++ [5])).call 7 true).1
      = .rejected ∧
    (((CircuitBreaker.init 2 1 10).runFailures ([1] ++ [5])).call 20 true).1
      ≠ .rejected := by
  have h := circuitBreaker_opens_rejects_then_halfOpen 2 1 10 [1] 5
    (by decide) (by decide)
  exact ⟨h.1, (h.2.2.1 7 true (by norm_num)).1, (h.2.2.2 20 true (by norm_num)).1⟩

/-- Counterexample to claim C5: with `success_threshold = 2`, a breaker that
entered `HALF_OPEN` and records a successful outcome is still `HALF_OPEN`
afterwards — `HALF_OPEN` does persist past the next recorded outcome.
Concretely: `failure_threshold 1, success_threshold 2, timeout 1`; one failure
at time 1 opens the breaker; the call at time 3 is admitted into `HALF_OPEN`,
the operation succeeds, and the state after that outcome is still
`HALF_OPEN`. -/
theorem circuitBreaker_halfOpen_persists_counterexample :
    ((((CircuitBreaker.init 1 2 1).call 1 false).2).canAttempt 3).2.state = .HALF_OPEN ∧
    ((((CircuitBreaker.init 1 2 1).call 1 false).2).call 3 true).1 = .succeeded ∧
    ((((CircuitBreaker.init 1 2 1).call 1 false).2).call 3 true).2.state = .HALF_OPEN := by
  have hstep := (CircuitBreaker.init 1 2 1).call_false_closed_opens 1 rfl
    (by norm_num [CircuitBreaker.init])
  rw [hstep]
  norm_num [CircuitBreaker.call, CircuitBreaker.canAttempt, CircuitBreaker.onSuccess,
    CircuitBreaker.closeCircuit, CircuitBreaker.init]

/-- Claim C5, amended: from `HALF_OPEN` the next recorded failure immediately
transitions the breaker back to `OPEN`, and a recorded success transitions it
to `CLOSED` exactly when it brings the consecutive-success count up to
`success_threshold`; otherwise the breaker remains in `HALF_OPEN`, so
`HALF_OPEN` can persist across up to `success_threshold - 1` consecutive
successes. -/
theorem circuitBreaker_halfOpen_next_outcome (b : CircuitBreaker) (now : ℚ)
    (hst : b.state = .HALF_OPEN) :
    (b.call now false).2.state = .OPEN ∧
    (b.call now true).2.state =
      (if b.success_threshold ≤ b.stats.consecutive_successes + 1 then CircuitState.CLOSED
       else .HALF_OPEN) := by
  constructor
  · simp [CircuitBreaker.call, CircuitBreaker.canAttempt, hst, CircuitBreaker.onFailure,
      CircuitBreaker.openCircuit]
  · by_cases h : b.success_threshold ≤ b.stats.consecutive_successes + 1 <;>
      simp [CircuitBreaker.call, CircuitBreaker.canAttempt, hst, CircuitBreaker.onSuccess,
        CircuitBreaker.closeCircuit, h]

/-- Witness for the amended C5 at a concrete `HALF_OPEN` breaker with
`success_threshold = 2` and no prior successes: a failure reopens it, a single
success leaves it in `HALF_OPEN`. -/
theorem circuitBreaker_halfOpen_next_outcome_witness :
    (({ CircuitBreaker.init 1 2 1 with state := .HALF_OPEN } : CircuitBreaker).call 4 false).2.state
      = .OPEN ∧
    (({ CircuitBreaker.init 1 2 1 with state := .HALF_OPEN } : CircuitBreaker).call 4 true).2.state
      = .HALF_OPEN := by
  have h := circuitBreaker_halfOpen_next_outcome
    { CircuitBreaker.init 1 2 1 with state := .HALF_OPEN } 4 rfl
  refine ⟨h.1, ?_⟩
  rw [h.2]
  decide

/-! ### Token bucket rate limiter (rate_limiter.py) -/

/-- The `TokenBucketRateLimiter` class: `rate` tokens/second, integer bucket
`capacity` (held as a rational), fractional token count, and the
`last_update` wall-clock stamp. -/
structure TokenBucketRateLimiter where
  rate : ℚ
  capacity : ℚ
  tokens : ℚ
  last_update : ℚ
deriving DecidableEq, Repr

/-- `TokenBucketRateLimiter.__init__`: the bucket starts full at construction
time `now`. -/
def TokenBucketRateLimiter.init (rate : ℚ) (capacity : ℕ) (now : ℚ) :
    TokenBucketRateLimiter :=
  { rate := rate, capacity := capacity, tokens := capacity, last_update := now }

/-- `TokenBucketRateLimiter._refill`: add `elapsed * rate` tokens, capped at
`capacity`, and stamp `last_update`. -/
def TokenBucketRateLimiter.refill (s : TokenBucketRateLimiter) (now : ℚ) :
    TokenBucketRateLimiter :=
  { s with
    tokens := min s.capacity (s.tokens + (now - s.last_update) * s.rate)
    last_update := now }

/-- `TokenBucketRateLimiter.acquire`, called at wall-clock time `t` for `n`
tokens.  Returns the admission time together with the updated bucket: either
the tokens are available after the lazy refill and the call is admitted at
`t`, or the call sleeps `(n - tokens) / rate` seconds, refills again and takes
the tokens.  `time.time()` is nondecreasing and the caller is sequential, so
the clock reading is at least `last_update`; `max t s.last_update` encodes
that. -/
def TokenBucketRateLimiter.acquire (s : TokenBucketRateLimiter) (t : ℚ) (n : ℕ) :
    ℚ × TokenBucketRateLimiter :=
  let now := max t s.last_update
  let s1 := s.refill now
  if (n : ℚ) ≤ s1.tokens then
    (now, { s1 with tokens := s1.tokens - n })
  else
    let tw := now + ((n : ℚ) - s1.tokens) / s.rate
    let s2 := s1.refill tw
    (tw, { s2 with tokens := s2.tokens - n })

/-- A sequence of `acquire` calls: each list entry is the wall-clock time of
the call and the number of tokens requested.  Returns the list of
(admission time, tokens) pairs and the final bucket state. -/
def TokenBucketRateLimiter.run (s : TokenBucketRateLimiter) :
    List (ℚ × ℕ) → List (ℚ × ℕ) × TokenBucketRateLimiter
  | [] => ([], s)
  | (t, n) :: reqs =>
    let p := s.acquire t n
    let r := p.2.run reqs
    ((p.1, n) :: r.1, r.2)

/-- Number of admissions that fall inside the closed window `[a, b]`. -/
def windowCount (a b : ℚ) (adms : List (ℚ × ℕ)) : ℕ :=
  (adms.filter (fun p => decide (a ≤ p.1) && decide (p.1 ≤ b))).length

/-- Total tokens taken by admissions inside the closed window `[a, b]`. -/
def windowSum (a b : ℚ) (adms : List (ℚ × ℕ)) : ℚ :=
  ((adms.filter (fun p => decide (a ≤ p.1) && decide (p.1 ≤ b))).map
    (fun p => (p.2 : ℚ))).sum

lemma TokenBucketRateLimiter.refill_tokens_le_capacity (s : TokenBucketRateLimiter)
    (now : ℚ) : (s.refill now).tokens ≤ s.capacity :=
  min_le_left _ _

lemma TokenBucketRateLimiter.refill_tokens_le_budget (s : TokenBucketRateLimiter)
    (now : ℚ) : (s.refill now).tokens ≤ s.tokens + (now - s.last_update) * s.rate :=
  min_le_right _ _

lemma TokenBucketRateLimiter.acquire_rate (s : TokenBucketRateLimiter) (t : ℚ) (n : ℕ) :
    ((s.acquire t n).2).rate = s.rate := by
  simp only [acquire, refill]
  split <;> rfl

lemma TokenBucketRateLimiter.acquire_capacity (s : TokenBucketRateLimiter) (t : ℚ) (n : ℕ) :
    ((s.acquire t n).2).capacity = s.capacity := by
  simp only [acquire, refill]
  split <;> rfl

lemma TokenBucketRateLimiter.acquire_last_update (s : TokenBucketRateLimiter) (t : ℚ)
    (n : ℕ) : ((s.acquire t n).2).last_update = (s.acquire t n).1 := by
  simp only [acquire, refill]
  split <;> rfl

lemma TokenBucketRateLimiter.acquire_fst_ge (s : TokenBucketRateLimiter) (t : ℚ) (n : ℕ)
    (hr : 0 < s.rate) : s.last_update ≤ (s.acquire t n).1 := by
  simp only [acquire, refill]
  split
  · exact le_max_right t s.last_update
  · rename_i h
    have h1 : min s.capacity (s.tokens + (max t s.last_update - s.last_update) * s.rate)
        < (n : ℚ) := by
      simpa using not_le.mp h
    have h2 : 0 < ((n : ℚ) -
        min s.capacity (s.tokens + (max t s.last_update - s.last_update) * s.rate)) / s.rate :=
      div_pos (by linarith) hr
    have h3 : s.last_update ≤ max t s.last_update := le_max_right _ _
    dsimp only
    linarith

lemma TokenBucketRateLimiter.acquire_tokens_add_le_capacity
    (s : TokenBucketRateLimiter) (t : ℚ) (n : ℕ) :
    ((s.acquire t n).2).tokens + n ≤ s.capacity := by
  simp only [acquire, refill]
  split
  · have := min_le_left s.capacity
      (s.tokens + (max t s.last_update - s.last_update) * s.rate)
    dsimp only
    linarith
  · have := min_le_left s.capacity
      (min s.capacity (s.tokens + (max t s.last_update - s.last_update) * s.rate) +
        (max t s.last_update +
            ((n : ℚ) - min s.capacity
              (s.tokens + (max t s.last_update - s.last_update) * s.rate)) / s.rate -
          max t s.last_update) * s.rate)
    dsimp only
    linarith

lemma TokenBucketRateLimiter.acquire_budget (s : TokenBucketRateLimiter) (t : ℚ) (n : ℕ) :
    ((s.acquire t n).2).tokens + n
      ≤ s.tokens + ((s.acquire t n).1 - s.last_update) * s.rate := by
  simp only [acquire, refill]
  set now := max t s.last_update with hnow
  set A := min s.capacity (s.tokens + (now - s.last_update) * s.rate) with hA
  have e1 : A ≤ s.tokens + (now - s.last_update) * s.rate := min_le_right _ _
  split
  · dsimp only
    linarith
  · dsimp only
    set tw := now + ((n : ℚ) - A) / s.rate with htw
    have e2 : min s.capacity (A + (tw - now) * s.rate) ≤ A + (tw - now) * s.rate :=
      min_le_right _ _
    have key : (now - s.last_update) * s.rate + (tw - now) * s.rate
        = (tw - s.last_update) * s.rate := by ring
    linarith

lemma TokenBucketRateLimiter.acquire_tokens_nonneg (s : TokenBucketRateLimiter)
    (t : ℚ) (n : ℕ) (hr : 0 < s.rate) (hn : (n : ℚ) ≤ s.capacity) :
    0 ≤ ((s.acquire t n).2).tokens := by
  simp only [acquire, refill]
  set now := max t s.last_update with hnow
  set A := min s.capacity (s.tokens + (now - s.last_update) * s.rate) with hA
  split
  · rename_i h
    dsimp only
    linarith
  · dsimp only
    have e1 : (now + ((n : ℚ) - A) / s.rate - now) * s.rate = (n : ℚ) - A := by
      field_simp
      ring
    rw [e1]
    have e2 : A + ((n : ℚ) - A) = (n : ℚ) := by ring
    rw [e2, min_eq_right hn]
    linarith

lemma windowSum_cons (a b : ℚ) (p : ℚ × ℕ) (l : List (ℚ × ℕ)) :
    windowSum a b (p :: l)
      = (if a ≤ p.1 ∧ p.1 ≤ b then (p.2 : ℚ) else 0) + windowSum a b l := by
  simp only [windowSum, List.filter_cons, Bool.and_eq_true, decide_eq_true_eq]
  by_cases h1 : a ≤ p.1 <;> by_cases h2 : p.1 ≤ b <;> simp [h1, h2]

lemma windowCount_cons (a b : ℚ) (p : ℚ × ℕ) (l : List (ℚ × ℕ)) :
    windowCount a b (p :: l)
      = (if a ≤ p.1 ∧ p.1 ≤ b then 1 else 0) + windowCount a b l := by
  simp only [windowCount, List.filter_cons, Bool.and_eq_true, decide_eq_true_eq]
  by_cases h1 : a ≤ p.1 <;> by_cases h2 : p.1 ≤ b <;> simp [h1, h2, Nat.add_comm]

lemma windowSum_eq_zero_of_gt (a b : ℚ) (l : List (ℚ × ℕ))
    (h : ∀ p ∈ l, b < p.1) : windowSum a b l = 0 := by
  induction l with
  | nil => rfl
  | cons p l ih =>
    rw [windowSum_cons, ih (fun q hq => h q (List.mem_cons_of_mem p hq))]
    rw [if_neg (fun hh => absurd hh.2 (not_le.mpr (h p (List.mem_cons_self p l))))]
    ring

lemma windowCount_le_windowSum (a b : ℚ) (l : List (ℚ × ℕ))
    (h : ∀ p ∈ l, 1 ≤ p.2) : (windowCount a b l : ℚ) ≤ windowSum a b l := by
  induction l with
  | nil => simp [windowCount, windowSum]
  | cons p l ih =>
    have hp : (1 : ℚ) ≤ (p.2 : ℚ) := by exact_mod_cast h p (List.mem_cons_self p l)
    have htail := ih (fun q hq => h q (List.mem_cons_of_mem p hq))
    rw [windowSum_cons, windowCount_cons]
    by_cases hc : a ≤ p.1 ∧ p.1 ≤ b
    · rw [if_pos hc, if_pos hc]
      push_cast
      linarith
    · rw [if_neg hc, if_neg hc]
      push_cast
      linarith

lemma TokenBucketRateLimiter.run_adm_ge (reqs : List (ℚ × ℕ))
    (s : TokenBucketRateLimiter) (hr : 0 < s.rate) :
    ∀ p ∈ (s.run reqs).1, s.last_update ≤ p.1 := by
  induction reqs generalizing s with
  | nil => intro p hp; simp [run] at hp
  | cons q reqs ih =>
    obtain ⟨t, n⟩ := q
    intro p hp
    have hrun : (s.run ((t, n) :: reqs)).1
        = ((s.acquire t n).1, n) :: (((s.acquire t n).2).run reqs).1 := rfl
    rw [hrun] at hp
    rcases List.mem_cons.mp hp with h | h
    · rw [h]
      exact s.acquire_fst_ge t n hr
    · have hr' : 0 < ((s.acquire t n).2).rate := by rw [s.acquire_rate t n]; exact hr
      have := ih ((s.acquire t n).2) hr' p h
      calc s.last_update ≤ (s.acquire t n).1 := s.acquire_fst_ge t n hr
        _ = ((s.acquire t n).2).last_update := (s.acquire_last_update t n).symm
        _ ≤ p.1 := this

lemma TokenBucketRateLimiter.run_adm_pos (reqs : List (ℚ × ℕ))
    (s : TokenBucketRateLimiter) (hval : ∀ q ∈ reqs, 1 ≤ q.2) :
    ∀ p ∈ (s.run reqs).1, 1 ≤ p.2 := by
  induction reqs generalizing s with
  | nil => intro p hp; simp [run] at hp
  | cons q reqs ih =>
    obtain ⟨t, n⟩ := q
    intro p hp
    have hrun : (s.run ((t, n) :: reqs)).1
        = ((s.acquire t n).1, n) :: (((s.acquire t n).2).run reqs).1 := rfl
    rw [hrun] at hp
    rcases List.mem_cons.mp hp with h | h
    · rw [h]
      exact hval (t, n) (List.mem_cons_self _ _)
    · exact ih ((s.acquire t n).2) (fun q hq => hval q (List.mem_cons_of_mem _ hq)) p h

lemma TokenBucketRateLimiter.run_windowSum_le (reqs : List (ℚ × ℕ))
    (s : TokenBucketRateLimiter) (a b : ℚ)
    (hr : 0 < s.rate) (ht0 : 0 ≤ s.tokens)
    (hval : ∀ p ∈ reqs, (p.2 : ℚ) ≤ s.capacity)
    (ha : a ≤ s.last_update) (hb : s.last_update ≤ b) :
    windowSum a b (s.run reqs).1 ≤ s.tokens + s.rate * (b - s.last_update) := by
  induction reqs generalizing s with
  | nil =>
    have h1 : 0 ≤ s.rate * (b - s.last_update) := mul_nonneg hr.le (by linarith)
    simp only [run, windowSum, List.filter_nil, List.map_nil, List.sum_nil]
    linarith
  | cons q reqs ih =>
    obtain ⟨t, n⟩ := q
    have hlu' : ((s.acquire t n).2).last_update = (s.acquire t n).1 :=
      s.acquire_last_update t n
    have hrate' : ((s.acquire t n).2).rate = s.rate := s.acquire_rate t n
    have hcap' : ((s.acquire t n).2).capacity = s.capacity := s.acquire_capacity t n
    have hfstge : s.last_update ≤ (s.acquire t n).1 := s.acquire_fst_ge t n hr
    have hbudget := s.acquire_budget t n
    have hnneg : 0 ≤ ((s.acquire t n).2).tokens :=
      s.acquire_tokens_nonneg t n hr (hval (t, n) (List.mem_cons_self _ _))
    have hrun : (s.run ((t, n) :: reqs)).1
        = ((s.acquire t n).1, n) :: (((s.acquire t n).2).run reqs).1 := rfl
    rw [hrun, windowSum_cons]
    by_cases hcase : (s.acquire t n).1 ≤ b
    · have hIH := ih ((s.acquire t n).2) (by rw [hrate']; exact hr) hnneg
        (fun p hp => by rw [hcap']; exact hval p (List.mem_cons_of_mem _ hp))
        (by rw [hlu']; exact le_trans ha hfstge) (by rw [hlu']; exact hcase)
      rw [hlu', hrate'] at hIH
      rw [if_pos ⟨le_trans ha hfstge, hcase⟩]
      have key : ((s.acquire t n).1 - s.last_update) * s.rate
            + s.rate * (b - (s.acquire t n).1)
          = s.rate * (b - s.last_update) := by ring
      linarith
    · have hr' : 0 < ((s.acquire t n).2).rate := by rw [hrate']; exact hr
      have hzero : windowSum a b ((((s.acquire t n).2)).run reqs).1 = 0 :=
        windowSum_eq_zero_of_gt a b _ (fun p hp =>
          lt_of_lt_of_le (not_le.mp hcase)
            (by rw [← hlu']; exact run_adm_ge reqs _ hr' p hp))
      rw [hzero, if_neg (fun hh => hcase hh.2)]
      have h1 : 0 ≤ s.rate * (b - s.last_update) := mul_nonneg hr.le (by linarith)
      linarith

lemma TokenBucketRateLimiter.run_windowSum_window_le (reqs : List (ℚ × ℕ))
    (s : TokenBucketRateLimiter) (a b : ℚ)
    (hr : 0 < s.rate) (ht0 : 0 ≤ s.tokens) (hc0 : 0 ≤ s.capacity)
    (hval : ∀ p ∈ reqs, (p.2 : ℚ) ≤ s.capacity)
    (hab : a ≤ b) :
    windowSum a b (s.run reqs).1 ≤ s.capacity + s.rate * (b - a) := by
  induction reqs generalizing s with
  | nil =>
    have h1 : 0 ≤ s.rate * (b - a) := mul_nonneg hr.le (by linarith)
    simp only [run, windowSum, List.filter_nil, List.map_nil, List.sum_nil]
    linarith
  | cons q reqs ih =>
    obtain ⟨t, n⟩ := q
    have hlu' : ((s.acquire t n).2).last_update = (s.acquire t n).1 :=
      s.acquire_last_update t n
    have hrate' : ((s.acquire t n).2).rate = s.rate := s.acquire_rate t n
    have hcap' : ((s.acquire t n).2).capacity = s.capacity := s.acquire_capacity t n
    have hnneg : 0 ≤ ((s.acquire t n).2).tokens :=
      s.acquire_tokens_nonneg t n hr (hval (t, n) (List.mem_cons_self _ _))
    have hrun : (s.run ((t, n) :: reqs)).1
        = ((s.acquire t n).1, n) :: (((s.acquire t n).2).run reqs).1 := rfl
    rw [hrun, windowSum_cons]
    by_cases hcase1 : (s.acquire t n).1 ≤ b
    · by_cases hcase2 : a ≤ (s.acquire t n).1
      · have hIH := run_windowSum_le reqs ((s.acquire t n).2) a b
          (by rw [hrate']; exact hr) hnneg
          (fun p hp => by rw [hcap']; exact hval p (List.mem_cons_of_mem _ hp))
          (by rw [hlu']; exact hcase2) (by rw [hlu']; exact hcase1)
        rw [hlu', hrate'] at hIH
        rw [if_pos ⟨hcase2, hcase1⟩]
        have hcapb := s.acquire_tokens_add_le_capacity t n
        have h2 : s.rate * (b - (s.acquire t n).1) ≤ s.rate * (b - a) :=
          mul_le_mul_of_nonneg_left (by linarith) hr.le
        linarith
      · have hIH := ih ((s.acquire t n).2) (by rw [hrate']; exact hr) hnneg
          (by rw [hcap']; exact hc0)
          (fun p hp => by rw [hcap']; exact hval p (List.mem_cons_of_mem _ hp))
        rw [hcap', hrate'] at hIH
        rw [if_neg (fun hh => hcase2 hh.1)]
        linarith
    · have hr' : 0 < ((s.acquire t n).2).rate := by rw [hrate']; exact hr
      have hzero : windowSum a b ((((s.acquire t n).2)).run reqs).1 = 0 :=
        windowSum_eq_zero_of_gt a b _ (fun p hp =>
          lt_of_lt_of_le (not_le.mp hcase1)
            (by rw [← hlu']; exact run_adm_ge reqs _ hr' p hp))
      rw [hzero, if_neg (fun hh => hcase1 hh.2)]
      have h1 : 0 ≤ s.rate * (b - a) := mul_nonneg hr.le (by linarith)
      linarith

/-- Claim C2: for a token bucket with capacity `C` and refill rate `R > 0`,
and any sequence of `acquire` calls each taking `n` tokens with
`1 ≤ n ≤ C`, the number of admitted operations inside any sliding window
`[a, a + T]` never exceeds `C + ⌈R * T⌉`. -/
theorem tokenBucket_sliding_window_bound (rate : ℚ) (capacity : ℕ) (t0 a T : ℚ)
    (reqs : List (ℚ × ℕ)) (hr : 0 < rate) (hT : 0 ≤ T)
    (hreq : ∀ p ∈ reqs, 1 ≤ p.2 ∧ (p.2 : ℚ) ≤ (capacity : ℚ)) :
    ((windowCount a (a + T)
        ((TokenBucketRateLimiter.init rate capacity t0).run reqs).1 : ℤ))
      ≤ (capacity : ℤ) + ⌈rate * T⌉ := by
  have hsum := TokenBucketRateLimiter.run_windowSum_window_le reqs
    (TokenBucketRateLimiter.init rate capacity t0) a (a + T) hr
    (by exact_mod_cast Nat.cast_nonneg capacity)
    (by exact_mod_cast Nat.cast_nonneg capacity)
    (fun p hp => (hreq p hp).2) (by linarith)
  have hcnt := windowCount_le_windowSum a (a + T)
    ((TokenBucketRateLimiter.init rate capacity t0).run reqs).1
    (TokenBucketRateLimiter.run_adm_pos reqs _ (fun p hp => (hreq p hp).1))
  have hceil : rate * T ≤ (⌈rate * T⌉ : ℚ) := Int.le_ceil _
  have heq : a + T - a = T := by ring
  rw [heq] at hsum
  have hc : (TokenBucketRateLimiter.init rate capacity t0).capacity = (capacity : ℚ) := rfl
  have hrr : (TokenBucketRateLimiter.init rate capacity t0).rate = rate := rfl
  rw [hc, hrr] at hsum
  have hq : (windowCount a (a + T)
        ((TokenBucketRateLimiter.init rate capacity t0).run reqs).1 : ℚ)
      ≤ (capacity : ℚ) + (⌈rate * T⌉ : ℚ) := by linarith
  exact_mod_cast hq

/-- Witness for C2: rate 1, capacity 2, three one-token acquires at times
0, 0 and 5; the window `[0, 5]` holds at most `2 + ⌈1 * 5⌉ = 7` admissions. -/
theorem tokenBucket_sliding_window_bound_witness :
    ((windowCount 0 (0 + 5)
        ((TokenBucketRateLimiter.init 1 2 0).run [(0, 1), (0, 1), (5, 1)]).1 : ℤ))
      ≤ (2 : ℤ) + ⌈(1 : ℚ) * 5⌉ := by
  have h := tokenBucket_sliding_window_bound 1 2 0 0 5 [(0, 1), (0, 1), (5, 1)]
    (by norm_num) (by norm_num)
    (by intro p hp; fin_cases hp <;> norm_num)
  exact_mod_cast h

/-! ### Proxy pool (proxy.py) -/

/-- The `ProxyInfo` dataclass (identity and statistics fields relevant to
availability; `url`, `protocol` and `location` are identity-only and
omitted). -/
structure ProxyInfo where
  total_requests : ℕ := 0
  successful_requests : ℕ := 0
  failed_requests : ℕ := 0
  last_used : Option ℚ := none
  last_success : Option ℚ := none
  last_failure : Option ℚ := none
  is_healthy : Bool := true
  consecutive_failures : ℕ := 0
  avg_response_time : ℚ := 0
  cooldown_until : Option ℚ := none
deriving DecidableEq, Repr

/-- `ProxyInfo.is_available`, evaluated at wall-clock time `now`:
unhealthy proxies are unavailable, as are proxies whose cooldown has not yet
elapsed (`datetime.now() < cooldown_until`). -/
def ProxyInfo.is_available (p : ProxyInfo) (now : ℚ) : Bool :=
  if ¬ p.is_healthy then false
  else
    match p.cooldown_until with
    | some c => if now < c then false else true
    | none => true

/-- `ProxyInfo.record_failure` at time `now` with the given
`cooldown_seconds` (default 60 at the call sites, 300 from a failed health
probe): bumps counters, marks the proxy unhealthy once
`consecutive_failures` reaches 3, and always sets a fresh cooldown window. -/
def ProxyInfo.record_failure (p : ProxyInfo) (now : ℚ) (cooldown_seconds : ℚ) :
    ProxyInfo :=
  let p1 := { p with
    total_requests := p.total_requests + 1
    failed_requests := p.failed_requests + 1
    consecutive_failures := p.consecutive_failures + 1
    last_used := some now
    last_failure := some now }
  let p2 := if 3 ≤ p1.consecutive_failures then { p1 with is_healthy := false } else p1
  { p2 with cooldown_until := some (now + cooldown_seconds) }

/-- `ProxyInfo.record_success` at time `now` with the observed
`response_time`: resets the failure streak and updates the rolling latency
average `avg = avg * 0.9 + response_time * 0.1` (first sample taken
verbatim). -/
def ProxyInfo.record_success (p : ProxyInfo) (now : ℚ) (response_time : ℚ) :
    ProxyInfo :=
  { p with
    total_requests := p.total_requests + 1
    successful_requests := p.successful_requests + 1
    consecutive_failures := 0
    last_used := some now
    last_success := some now
    avg_response_time :=
      if p.avg_response_time = 0 then response_time
      else p.avg_response_time * (9 / 10) + response_time * (1 / 10) }

/-- `ProxyInfo.reset_health`: the reset performed by a successful health
probe on a previously unhealthy proxy (and by manual reset). -/
def ProxyInfo.reset_health (p : ProxyInfo) : ProxyInfo :=
  { p with is_healthy := true, consecutive_failures := 0, cooldown_until := none }

/-- Counterexample to claim C4: a fresh proxy that records 3 consecutive
failures (cooldown 60s, last failure at time 2) has its cooldown fully
elapsed at time 100, yet `is_available` is still `false` — elapsing of the
cooldown alone does not make the proxy available again once it has been
marked unhealthy. -/
theorem proxy_cooldown_elapsed_still_unavailable_counterexample :
    (((({} : ProxyInfo).record_failure 0 60).record_failure 1 60).record_failure
        2 60).cooldown_until = some 62 ∧
    ((62 : ℚ) ≤ 100) ∧
    (((({} : ProxyInfo).record_failure 0 60).record_failure 1 60).record_failure
        2 60).is_available 100 = false := by
  norm_num [ProxyInfo.record_failure, ProxyInfo.is_available]

lemma ProxyInfo.record_failure_consecutive (p : ProxyInfo) (now c : ℚ) :
    (p.record_failure now c).consecutive_failures = p.consecutive_failures + 1 := by
  simp only [record_failure]
  split <;> rfl

lemma ProxyInfo.record_failure_healthy_of_lt (p : ProxyInfo) (now c : ℚ)
    (h : p.consecutive_failures + 1 < 3) :
    (p.record_failure now c).is_healthy = p.is_healthy := by
  simp only [record_failure]
  rw [if_neg (by omega)]

lemma ProxyInfo.record_failure_unhealthy (p : ProxyInfo) (now c : ℚ)
    (h : 3 ≤ p.consecutive_failures + 1) :
    (p.record_failure now c).is_healthy = false := by
  simp only [record_failure]
  rw [if_pos (by omega)]

lemma ProxyInfo.record_failure_cooldown (p : ProxyInfo) (now c : ℚ) :
    (p.record_failure now c).cooldown_until = some (now + c) := by
  simp only [record_failure]

lemma ProxyInfo.is_available_false_of_unhealthy (p : ProxyInfo) (t : ℚ)
    (h : p.is_healthy = false) : p.is_available t = false := by
  simp [is_available, h]

/-- Claim C4, amended: after 3 consecutive `record_failure` calls a proxy is
unavailable immediately and remains unavailable at every later time — the
elapsing of its cooldown alone does not restore availability once the proxy
is unhealthy; availability returns via the health reset performed by a
successful health probe (or manual reset), after which the proxy is
available at every time.  Cooldown expiry alone restores availability only
for a proxy that is still healthy (fewer than 3 consecutive failures), shown
here for a single recorded failure. -/
theorem proxy_three_failures_unavailable_until_reset (p : ProxyInfo)
    (t1 t2 t3 c : ℚ)
    (hh : p.is_healthy = true) (hcf : p.consecutive_failures = 0) :
    (∀ t, (((p.record_failure t1 c).record_failure t2 c).record_failure t3 c).is_available t
        = false) ∧
    (∀ u, ((((p.record_failure t1 c).record_failure t2 c).record_failure t3 c).reset_health).is_available u
        = true) ∧
    (p.record_failure t1 c).is_available (t1 + c) = true := by
  have hcf1 : (p.record_failure t1 c).consecutive_failures = 1 := by
    rw [ProxyInfo.record_failure_consecutive, hcf]
  have hcf2 : ((p.record_failure t1 c).record_failure t2 c).consecutive_failures = 2 := by
    rw [ProxyInfo.record_failure_consecutive, hcf1]
  have hunh : (((p.record_failure t1 c).record_failure t2 c).record_failure t3 c).is_healthy
      = false :=
    ProxyInfo.record_failure_unhealthy _ t3 c (by omega)
  refine ⟨fun t => ProxyInfo.is_available_false_of_unhealthy _ t hunh, fun u => ?_, ?_⟩
  · simp [ProxyInfo.reset_health, ProxyInfo.is_available]
  · have hh1 : (p.record_failure t1 c).is_healthy = true := by
      rw [ProxyInfo.record_failure_healthy_of_lt p t1 c (by omega), hh]
    have hcd1 : (p.record_failure t1 c).cooldown_until = some (t1 + c) :=
      ProxyInfo.record_failure_cooldown p t1 c
    simp [ProxyInfo.is_available, hh1, hcd1]

/-- Witness for the amended C4 on a fresh proxy with 60-second cooldowns:
failures at times 0, 1, 2 leave it unavailable at time 1000; after a health
reset it is available at time 3; a single failure at time 0 leaves it
available again at time 60. -/
theorem proxy_three_failures_unavailable_until_reset_witness :
    ((((({} : ProxyInfo).record_failure 0 60).record_failure 1 60).record_failure
        2 60).is_available 1000 = false) ∧
    (((((({} : ProxyInfo).record_failure 0 60).record_failure 1 60).record_failure
        2 60).reset_health).is_available 3 = true) ∧
    (({} : ProxyInfo).record_failure 0 60).is_available (0 + 60) = true := by
  have h := proxy_three_failures_unavailable_until_reset {} 0 1 2 60 rfl rfl
  exact ⟨h.1 1000, h.2.1 3, h.2.2⟩

/-! ### Retry strategies (retry_strategy.py) and error classifier
(error_classifier.py) -/

/-- The value of a `Retry-After`-style header, abstracted by how Python's
`float()` treats the raw string: `numeric q` is a nonempty string parsing to
the float `q`, `malformed` a nonempty string `float()` rejects, `empty` the
empty string (falsy, and also rejected by `float()`). -/
inductive RAVal where
  | numeric (q : ℚ)
  | malformed
  | empty
deriving DecidableEq, Repr

/-- The failures the classifier and the adaptive strategy inspect.
`httpError` is any exception carrying a `response` attribute, with its
optional `status_code`, optional `Retry-After` header and whether the
response/headers show Cloudflare markers (`cf-ray` header or the string
`cloudflare` in the exception text).  `valueError`, `keyError` and
`attributeError` are the structural parsing failures; `otherError` is any
other exception. -/
inductive PyExc where
  | connectionError
  | timeoutError
  | valueError
  | keyError
  | attributeError
  | httpError (status : Option ℕ) (retryAfter : Option RAVal) (cfMarkers : Bool)
  | otherError
deriving DecidableEq, Repr

/-- The `RetryContext` dataclass. -/
structure RetryContext where
  attempt : ℕ
  total_attempts : ℕ
  last_exception : Option PyExc := none
  elapsed_time : ℚ := 0
deriving DecidableEq, Repr

/-- The `ExponentialBackoffStrategy` class configuration. -/
structure ExponentialBackoffStrategy where
  max_attempts : ℕ := 5
  base_delay : ℚ := 1
  max_delay : ℚ := 60
  multiplier : ℚ := 2
  jitter : Bool := true
deriving DecidableEq, Repr

/-- `ExponentialBackoffStrategy.should_retry`: retry while
`attempt < max_attempts`. -/
def ExponentialBackoffStrategy.should_retry (s : ExponentialBackoffStrategy)
    (ctx : RetryContext) : Bool :=
  ctx.attempt < s.max_attempts

/-- `ExponentialBackoffStrategy.get_wait_time`:
`max 0 (min (base * multiplier ^ (attempt - 1)) max_delay)`, with the ±25%
jitter sample passed explicitly as `jitterSample` (the value of
`random.uniform(-delay*0.25, delay*0.25)`).  Attempts are 1-based
(`retry_with_strategy` increments `attempt` before the first use), so the
Python exponent `attempt - 1` is the natural subtraction here. -/
def ExponentialBackoffStrategy.get_wait_time (s : ExponentialBackoffStrategy)
    (ctx : RetryContext) (jitterSample : ℚ) : ℚ :=
  let delay := s.base_delay * s.multiplier ^ (ctx.attempt - 1)
  let delay := min delay s.max_delay
  let delay := if s.jitter then delay + jitterSample else delay
  max 0 delay

/-- The `AdaptiveRetryStrategy` class configuration. -/
structure AdaptiveRetryStrategy where
  max_attempts : ℕ := 5
  base_delay : ℚ := 1
  max_delay : ℚ := 120
deriving DecidableEq, Repr

/-- `AdaptiveRetryStrategy.should_retry`: no retry at or past `max_attempts`;
no last exception or a network/timeout failure retries; a failure with a
response and a 4xx status retries only when it is 429; 5xx retries; every
other failure falls through to `return True`. -/
def AdaptiveRetryStrategy.should_retry (s : AdaptiveRetryStrategy)
    (ctx : RetryContext) : Bool :=
  if s.max_attempts ≤ ctx.attempt then false
  else
    match ctx.last_exception with
    | none => true
    | some e =>
      match e with
      | .connectionError => true
      | .timeoutError => true
      | .httpError st _ _ =>
        match st with
        | some v =>
          if 400 ≤ v ∧ v < 500 then decide (v = 429)
          else if 500 ≤ v ∧ v < 600 then true
          else true
        | none => true
      | _ => true

/-- `AdaptiveRetryStrategy.get_wait_time`.  A truthy `Retry-After` header
that `float()` accepts is returned verbatim; otherwise 429 and 5xx statuses
get their longer exponential backoffs; every other failure (including any
without a `response`) falls through to the jittered network backoff, whose
`random.uniform(0, delay*0.3)` sample is the explicit `jitterSample`. -/
def AdaptiveRetryStrategy.get_wait_time (s : AdaptiveRetryStrategy)
    (ctx : RetryContext) (jitterSample : ℚ) : ℚ :=
  match ctx.last_exception with
  | none => s.base_delay
  | some e =>
    let fallback :=
      min (s.base_delay * 2 ^ (ctx.attempt - 1) + jitterSample) s.max_delay
    match e with
    | .httpError st ra _ =>
      match ra with
      | some (.numeric q) => q
      | _ =>
        match st with
        | some v =>
          if v = 429 then min (s.base_delay * 3 ^ ctx.attempt) s.max_delay
          else if 500 ≤ v ∧ v < 600 then
            min (s.base_delay * 2 ^ ctx.attempt) s.max_delay
          else fallback
        | none => fallback
    | _ => fallback

/-- `ErrorSeverity` from `error_classifier.py`. -/
inductive ErrorSeverity where
  | LOW
  | MEDIUM
  | HIGH
  | CRITICAL
deriving DecidableEq, Repr

/-- `ErrorType` from `error_classifier.py`. -/
inductive ErrorType where
  | NETWORK
  | TIMEOUT
  | RATE_LIMIT
  | AUTHENTICATION
  | AUTHORIZATION
  | NOT_FOUND
  | SERVER_ERROR
  | CLIENT_ERROR
  | PARSING
  | VALIDATION
  | CAPTCHA
  | CLOUDFLARE
  | PROXY
  | UNKNOWN
deriving DecidableEq, Repr

/-- The `ErrorClassification` dataclass (the free-text `message` is
omitted; it carries no behaviour). -/
structure ErrorClassification where
  error_type : ErrorType
  severity : ErrorSeverity
  should_retry : Bool
  retry_after : Option ℚ := none
  requires_alert : Bool := false
deriving DecidableEq, Repr

/-- `ErrorClassifier._classify_http_error`, keyed on the `status_code` of the
attached response (`if not status:` treats both a missing and a zero status
as status-less), the optional `Retry-After` header and the Cloudflare
markers.  For 429, `float(headers['Retry-After'])` failing with `ValueError`
(malformed or empty string) yields 60.0, and the final
`retry_after or 60.0` maps a parsed 0.0 to 60.0 as well. -/
def ErrorClassifier.classify_http_error (st : Option ℕ) (ra : Option RAVal)
    (cf : Bool) : ErrorClassification :=
  match st with
  | none =>
    { error_type := .UNKNOWN, severity := .MEDIUM, should_retry := true }
  | some status =>
    if status = 0 then
      { error_type := .UNKNOWN, severity := .MEDIUM, should_retry := true }
    else if status = 401 then
      { error_type := .AUTHENTICATION, severity := .HIGH, should_retry := false
        requires_alert := true }
    else if status = 403 then
      if cf then
        { error_type := .CLOUDFLARE, severity := .HIGH, should_retry := true
          retry_after := some 60 }
      else
        { error_type := .AUTHORIZATION, severity := .MEDIUM, should_retry := false }
    else if status = 404 then
      { error_type := .NOT_FOUND, severity := .LOW, should_retry := false }
    else if status = 429 then
      let parsed : Option ℚ :=
        match ra with
        | none => none
        | some (.numeric q) => some q
        | some .malformed => some 60
        | some .empty => some 60
      { error_type := .RATE_LIMIT, severity := .MEDIUM, should_retry := true
        retry_after := some (match parsed with
          | some q => if q = 0 then 60 else q
          | none => 60) }
    else if 500 ≤ status ∧ status < 600 then
      if status = 503 then
        { error_type := .SERVER_ERROR, severity := .HIGH, should_retry := true
          retry_after := some 30, requires_alert := true }
      else
        { error_type := .SERVER_ERROR, severity := .MEDIUM, should_retry := true }
    else if 400 ≤ status ∧ status < 500 then
      { error_type := .CLIENT_ERROR, severity := .LOW, should_retry := false }
    else
      { error_type := .UNKNOWN, severity := .MEDIUM, should_retry := true }

/-- `ErrorClassifier.classify`. -/
def ErrorClassifier.classify (e : PyExc) : ErrorClassification :=
  match e with
  | .connectionError =>
    { error_type := .NETWORK, severity := .MEDIUM, should_retry := true }
  | .timeoutError =>
    { error_type := .TIMEOUT, severity := .MEDIUM, should_retry := true }
  | .httpError st ra cf => ErrorClassifier.classify_http_error st ra cf
  | .valueError =>
    { error_type := .PARSING, severity := .LOW, should_retry := false }
  | .keyError =>
    { error_type := .PARSING, severity := .LOW, should_retry := false }
  | .attributeError =>
    { error_type := .PARSING, severity := .LOW, should_retry := false }
  | .otherError =>
    { error_type := .UNKNOWN, severity := .HIGH, should_retry := false
      requires_alert := true }

/-- Claim C9: for `ExponentialBackoffStrategy` with `jitter = False` and
nonnegative configuration, `get_wait_time` equals
`min(max_delay, base_delay * multiplier ^ (attempt - 1))`; `should_retry`
returns false exactly when `attempt >= max_attempts`; and with the default
`base_delay = 1.0, multiplier = 2.0` the waits for attempts 1, 2, 3 are
exactly 1.0, 2.0, 4.0. -/
theorem exponentialBackoff_wait_times (s : ExponentialBackoffStrategy)
    (ctx : RetryContext) (js : ℚ)
    (hb : 0 ≤ s.base_delay) (hm : 0 ≤ s.max_delay) (hmu : 0 ≤ s.multiplier)
    (hj : s.jitter = false) :
    s.get_wait_time ctx js
      = min s.max_delay (s.base_delay * s.multiplier ^ (ctx.attempt - 1)) ∧
    (s.should_retry ctx = false ↔ s.max_attempts ≤ ctx.attempt) ∧
    ({ jitter := false } : ExponentialBackoffStrategy).get_wait_time
      { attempt := 1, total_attempts := 1 } 0 = 1 ∧
    ({ jitter := false } : ExponentialBackoffStrategy).get_wait_time
      { attempt := 2, total_attempts := 2 } 0 = 2 ∧
    ({ jitter := false } : ExponentialBackoffStrategy).get_wait_time
      { attempt := 3, total_attempts := 3 } 0 = 4 := by
  refine ⟨?_, ?_, ?_, ?_, ?_⟩
  · simp only [ExponentialBackoffStrategy.get_wait_time, hj, Bool.false_eq_true,
      if_false]
    have hd : 0 ≤ min (s.base_delay * s.multiplier ^ (ctx.attempt - 1)) s.max_delay :=
      le_min (mul_nonneg hb (pow_nonneg hmu _)) hm
    rw [max_eq_right hd, min_comm]
  · simp [ExponentialBackoffStrategy.should_retry, not_lt]
  · norm_num [ExponentialBackoffStrategy.get_wait_time]
  · norm_num [ExponentialBackoffStrategy.get_wait_time]
  · norm_num [ExponentialBackoffStrategy.get_wait_time]

/-- Witness for C9 at attempt 4 of the default strategy without jitter:
the wait is `min 60 (1 * 2 ^ 3) = 8`, and retries stop exactly from
attempt 5. -/
theorem exponentialBackoff_wait_times_witness :
    ({ jitter := false } : ExponentialBackoffStrategy).get_wait_time
      { attempt := 4, total_attempts := 4 } 0 = 8 ∧
    ({ jitter := false } : ExponentialBackoffStrategy).should_retry
      { attempt := 5, total_attempts := 5 } = false := by
  have h4 := exponentialBackoff_wait_times { jitter := false }
    { attempt := 4, total_attempts := 4 } 0 (by norm_num) (by norm_num) (by norm_num) rfl
  have h5 := exponentialBackoff_wait_times { jitter := false }
    { attempt := 5, total_attempts := 5 } 0 (by norm_num) (by norm_num) (by norm_num) rfl
  constructor
  · rw [h4.1]; norm_num
  · exact (h5.2.1).mpr (by norm_num)

/-- Counterexample to claim C6: a `ValueError` is classified as `parsing`
and non-retryable by the Error Classifier, yet `AdaptiveRetryStrategy`
(default `max_attempts = 5`) retries it at attempt 1: `should_retry` never
consults the classifier and falls through to `return True` for exceptions
without a `response` attribute. -/
theorem adaptiveRetry_retries_parsing_counterexample :
    (ErrorClassifier.classify .valueError).should_retry = false ∧
    ({} : AdaptiveRetryStrategy).should_retry
      { attempt := 1, total_attempts := 1, last_exception := some .valueError } = true ∧
    (1 : ℕ) < ({} : AdaptiveRetryStrategy).max_attempts := by
  refine ⟨rfl, rfl, by norm_num⟩

/-- Claim C6, amended: below `max_attempts`, `AdaptiveRetryStrategy` refuses
to retry a failure carrying a response with a non-retryable 4xx status,
except 429 which is always retried; failures without a response — including
parsing errors such as `ValueError`, whose classification is non-retryable —
are nevertheless retried; and `get_wait_time` returns a numeric `Retry-After`
header value verbatim whenever one is present. -/
theorem adaptiveRetry_4xx_parsing_retry_after (s : AdaptiveRetryStrategy) :
    (∀ ctx v ra cf, ctx.attempt < s.max_attempts →
       ctx.last_exception = some (.httpError (some v) ra cf) →
       400 ≤ v → v < 500 →
       s.should_retry ctx = decide (v = 429)) ∧
    (∀ ctx, ctx.attempt < s.max_attempts →
       ctx.last_exception = some .valueError →
       s.should_retry ctx = true) ∧
    (∀ ctx q st cf js,
       ctx.last_exception = some (.httpError st (some (.numeric q)) cf) →
       s.get_wait_time ctx js = q) := by
  refine ⟨?_, ?_, ?_⟩
  · intro ctx v ra cf hlt hexc h4 h5
    rw [AdaptiveRetryStrategy.should_retry, if_neg (not_le.mpr hlt), hexc]
    simp only
    rw [if_pos ⟨h4, h5⟩]
  · intro ctx hlt hexc
    rw [AdaptiveRetryStrategy.should_retry, if_neg (not_le.mpr hlt), hexc]
  · intro ctx q st cf js hexc
    rw [AdaptiveRetryStrategy.get_wait_time, hexc]

/-- Witness for the amended C6: a 404 is not retried, a 429 is, and a
numeric Retry-After of 7 seconds is returned verbatim (default strategy,
attempt 1). -/
theorem adaptiveRetry_4xx_parsing_retry_after_witness :
    ({} : AdaptiveRetryStrategy).should_retry
      { attempt := 1, total_attempts := 1,
        last_exception := some (.httpError (some 404) none false) } = false ∧
    ({} : AdaptiveRetryStrategy).should_retry
      { attempt := 1, total_attempts := 1,
        last_exception := some (.httpError (some 429) none false) } = true ∧
    ({} : AdaptiveRetryStrategy).should_retry
      { attempt := 1, total_attempts := 1,
        last_exception := some .valueError } = true ∧
    ({} : AdaptiveRetryStrategy).get_wait_time
      { attempt := 1, total_attempts := 1,
        last_exception := some (.httpError (some 429) (some (.numeric 7)) false) } 0
      = 7 := by
  have h := adaptiveRetry_4xx_parsing_retry_after {}
  refine ⟨?_, ?_, ?_, ?_⟩
  · rw [h.1 _ 404 none false (by norm_num) rfl (by norm_num) (by norm_num)]
    decide
  · rw [h.1 _ 429 none false (by norm_num) rfl (by norm_num) (by norm_num)]
    decide
  · exact h.2.1 _ (by norm_num) rfl
  · exact h.2.2 _ 7 (some 429) false 0 rfl

/-- Counterexample to claim C7: a 429 response whose `Retry-After` header is
the numeric value 0 yields a suggested delay of 60.0, not the header value
0.0 — the final `retry_after or 60.0` in the classifier treats the parsed
0.0 as falsy. -/
theorem errorClassifier_429_zero_retry_after_counterexample :
    (ErrorClassifier.classify (.httpError (some 429) (some (.numeric 0)) false)).retry_after
      = some 60 ∧
    (ErrorClassifier.classify (.httpError (some 429) (some (.numeric 0)) false)).retry_after
      ≠ some ((0 : ℚ)) := by
  refine ⟨by norm_num [ErrorClassifier.classify, ErrorClassifier.classify_http_error], ?_⟩
  rw [show (ErrorClassifier.classify
      (.httpError (some 429) (some (.numeric 0)) false)).retry_after = some 60 from
    by norm_num [ErrorClassifier.classify, ErrorClassifier.classify_http_error]]
  norm_num

/-- Claim C7, amended: a 429 response is classified retryable (`rate_limit`)
with suggested delay equal to the numeric `Retry-After` value whenever one
is present and nonzero (5 yields 5.0); the delay is 60 seconds when the
header is absent, non-numeric, or zero; a 404 is classified `not_found` and
non-retryable. -/
theorem errorClassifier_429_and_404 :
    (∀ q cf, q ≠ 0 →
       ErrorClassifier.classify (.httpError (some 429) (some (.numeric q)) cf)
         = { error_type := .RATE_LIMIT, severity := .MEDIUM, should_retry := true
             retry_after := some q }) ∧
    (∀ cf, (ErrorClassifier.classify (.httpError (some 429) none cf)).retry_after
       = some 60) ∧
    (∀ cf, (ErrorClassifier.classify (.httpError (some 429) (some .malformed) cf)).retry_after
       = some 60) ∧
    (∀ ra cf, ErrorClassifier.classify (.httpError (some 404) ra cf)
       = { error_type := .NOT_FOUND, severity := .LOW, should_retry := false }) := by
  refine ⟨?_, ?_, ?_, ?_⟩
  · intro q cf hq
    norm_num [ErrorClassifier.classify, ErrorClassifier.classify_http_error]
    exact fun h => absurd h hq
  · intro cf
    norm_num [ErrorClassifier.classify, ErrorClassifier.classify_http_error]
  · intro cf
    norm_num [ErrorClassifier.classify, ErrorClassifier.classify_http_error]
  · intro ra cf
    norm_num [ErrorClassifier.classify, ErrorClassifier.classify_http_error]

/-- Witness for the amended C7: `Retry-After: 5` on a 429 yields a retryable
classification with delay 5.0; without the header the delay is 60; a 404 is
non-retryable. -/
theorem errorClassifier_429_and_404_witness :
    (ErrorClassifier.classify (.httpError (some 429) (some (.numeric 5)) false))
      = { error_type := .RATE_LIMIT, severity := .MEDIUM, should_retry := true
          retry_after := some 5 } ∧
    (ErrorClassifier.classify (.httpError (some 429) none false)).retry_after
      = some 60 ∧
    (ErrorClassifier.classify (.httpError (some 404) none false)).should_retry
      = false := by
  have h := errorClassifier_429_and_404
  refine ⟨h.1 5 false (by norm_num), h.2.1 false, ?_⟩
  rw [h.2.2.2 none false]

/-! ### Checkpoint manager (checkpoint_manager.py)

File contents are abstracted by their JSON parse result: `json.dump` /
`json.load` round-trip faithfully on JSON-serializable data, so a parseable
file is represented by its parsed value and an unparseable one by its raw
text.  `datetime.isoformat` / `datetime.fromisoformat` are modelled by an
injective decimal rendering of an integer timestamp with its partial
inverse. -/

/-- JSON values, the image of `json.dump` on JSON-serializable Python
data. -/
inductive JsonVal where
  | null
  | bool (b : Bool)
  | num (q : ℚ)
  | str (s : String)
  | arr (xs : List JsonVal)
  | obj (fields : List (String × JsonVal))

/-- Python truthiness of a JSON value (`if data.get('last_updated'):`). -/
def jsonTruthy : JsonVal → Bool
  | .null => false
  | .bool b => b
  | .num q => decide (q ≠ 0)
  | .str s => decide (s ≠ "")
  | .arr xs => !xs.isEmpty
  | .obj fs => !fs.isEmpty

/-- Decimal digit character (`0`–`9`). -/
def digitChar (d : ℕ) : Char := Char.ofNat (48 + d)

/-- Numeric value of a decimal digit character. -/
def charDigitVal (c : Char) : ℕ := c.toNat - 48

/-- Whether a character is a decimal digit. -/
def isDigitChar (c : Char) : Bool := decide (48 ≤ c.toNat) && decide (c.toNat ≤ 57)

/-- The timestamp serialization used for `last_updated.isoformat()`:
an injective decimal rendering of the integer timestamp. -/
def isoOfTime (n : ℕ) : String :=
  if n = 0 then "0" else String.mk ((Nat.digits 10 n).reverse.map digitChar)

/-- The partial inverse used for `datetime.fromisoformat`: accepts exactly
nonempty all-digit strings. -/
def timeOfIso (s : String) : Option ℕ :=
  if s.data ≠ [] ∧ s.data.all isDigitChar then
    some (Nat.ofDigits 10 ((s.data.map charDigitVal).reverse))
  else none

lemma charDigitVal_digitChar (d : ℕ) (h : d < 10) :
    charDigitVal (digitChar d) = d := by
  interval_cases d <;> rfl

lemma isDigitChar_digitChar (d : ℕ) (h : d < 10) :
    isDigitChar (digitChar d) = true := by
  interval_cases d <;> rfl

lemma isoOfTime_ne_empty (n : ℕ) : isoOfTime n ≠ "" := by
  unfold isoOfTime
  split
  · decide
  · rename_i h
    intro hc
    have hd : (Nat.digits 10 n).reverse.map digitChar = [] := congrArg String.data hc
    rw [List.map_eq_nil_iff, List.reverse_eq_nil_iff] at hd
    exact Nat.digits_ne_nil_iff_ne_zero.mpr h hd

lemma timeOfIso_isoOfTime (n : ℕ) : timeOfIso (isoOfTime n) = some n := by
  by_cases h0 : n = 0
  · subst h0; decide
  · unfold isoOfTime
    rw [if_neg h0]
    unfold timeOfIso
    have hdigits : ∀ d ∈ Nat.digits 10 n, d < 10 := fun d hd =>
      Nat.digits_lt_base (by norm_num) hd
    have hdata : (String.mk ((Nat.digits 10 n).reverse.map digitChar)).data
        = (Nat.digits 10 n).reverse.map digitChar := rfl
    rw [hdata]
    have hne : (Nat.digits 10 n).reverse.map digitChar ≠ [] := by
      rw [ne_eq, List.map_eq_nil_iff, List.reverse_eq_nil_iff]
      exact Nat.digits_ne_nil_iff_ne_zero.mpr h0
    have hall : ((Nat.digits 10 n).reverse.map digitChar).all isDigitChar = true := by
      rw [List.all_eq_true]
      intro c hc
      rw [List.mem_map] at hc
      obtain ⟨d, hd, rfl⟩ := hc
      exact isDigitChar_digitChar d (hdigits d (List.mem_reverse.mp hd))
    rw [if_pos ⟨hne, hall⟩]
    congr 1
    rw [List.map_map]
    have hmap : ((Nat.digits 10 n).reverse.map (charDigitVal ∘ digitChar))
        = (Nat.digits 10 n).reverse := by
      conv_rhs => rw [← List.map_id ((Nat.digits 10 n).reverse)]
      apply List.map_congr_left
      intro d hd
      exact charDigitVal_digitChar d (hdigits d (List.mem_reverse.mp hd))
    rw [hmap, List.reverse_reverse, Nat.ofDigits_digits]

/-- The `Checkpoint` dataclass.  The JSON-serializable payload fields are
`JsonVal`s; `last_updated` is the optional `datetime`, an integer
timestamp here.  Defaults mirror the dataclass defaults. -/
structure Checkpoint where
  scraper_name : JsonVal
  checkpoint_type : JsonVal
  value : JsonVal
  total_items : JsonVal := .num 0
  scraped_items : JsonVal := .num 0
  last_updated : Option ℕ := none
  metadata : JsonVal := .null

/-- `Checkpoint.to_dict`: `asdict(self)` with a truthy `last_updated`
converted to its isoformat string (a `datetime` is always truthy; `None`
stays `null`). -/
def Checkpoint.to_dict (c : Checkpoint) : JsonVal :=
  .obj [("scraper_name", c.scraper_name),
        ("checkpoint_type", c.checkpoint_type),
        ("value", c.value),
        ("total_items", c.total_items),
        ("scraped_items", c.scraped_items),
        ("last_updated", match c.last_updated with
          | some d => .str (isoOfTime d)
          | none => .null),
        ("metadata", c.metadata)]

/-- First-match key lookup in a JSON object (JSON objects produced by
`json.load` have unique keys). -/
def lookupKey : List (String × JsonVal) → String → Option JsonVal
  | [], _ => none
  | (k, v) :: rest, key => if k = key then some v else lookupKey rest key

/-- The field names of the `Checkpoint` dataclass; `cls(**data)` rejects any
other key and requires the three without defaults. -/
def checkpointKeys : List String :=
  ["scraper_name", "checkpoint_type", "value", "total_items", "scraped_items",
   "last_updated", "metadata"]

/-- The `last_updated` handling of `Checkpoint.from_dict`:
`if data.get('last_updated'): data['last_updated'] = fromisoformat(...)`.
A missing or falsy value leaves the field `None` (falsy non-null raw values
are normalized to `None`, which is how every consumer treats them); a truthy
string must parse; a truthy non-string makes `fromisoformat` raise
(`none`). -/
def parseLastUpdated : Option JsonVal → Option (Option ℕ)
  | none => some none
  | some v =>
    if jsonTruthy v then
      match v with
      | .str s => (timeOfIso s).map some
      | _ => none
    else some none

/-- `Checkpoint.from_dict`: succeeds exactly when the JSON document is an
object whose keys are `Checkpoint` fields including the three required ones
and whose `last_updated` deserializes; `cls(**data)` raises (and
`load_checkpoint` returns `None`) otherwise. -/
def Checkpoint.from_dict (j : JsonVal) : Option Checkpoint :=
  match j with
  | .obj kvs =>
    if (kvs.map Prod.fst).all (fun k => checkpointKeys.contains k)
        && (lookupKey kvs "scraper_name").isSome
        && (lookupKey kvs "checkpoint_type").isSome
        && (lookupKey kvs "value").isSome then
      (parseLastUpdated (lookupKey kvs "last_updated")).map (fun lu =>
        { scraper_name := (lookupKey kvs "scraper_name").getD .null
          checkpoint_type := (lookupKey kvs "checkpoint_type").getD .null
          value := (lookupKey kvs "value").getD .null
          total_items := (lookupKey kvs "total_items").getD (.num 0)
          scraped_items := (lookupKey kvs "scraped_items").getD (.num 0)
          last_updated := lu
          metadata := (lookupKey kvs "metadata").getD .null })
    else none
  | _ => none

lemma Checkpoint.from_dict_to_dict (c : Checkpoint) :
    Checkpoint.from_dict (Checkpoint.to_dict c) = some c := by
  obtain ⟨sn, ct, v, ti, si, lu, md⟩ := c
  cases lu with
  | none => rfl
  | some d =>
    have hne : isoOfTime d ≠ "" := isoOfTime_ne_empty d
    have hkey : parseLastUpdated (some (.str (isoOfTime d))) = some (some d) := by
      simp [parseLastUpdated, jsonTruthy, hne, timeOfIso_isoOfTime d]
    simp only [Checkpoint.to_dict, Checkpoint.from_dict, lookupKey]
    simp +decide [checkpointKeys, hkey]

/-- The checkpoint directory: maps a checkpoint id (the file
`{checkpoint_id}.json`) to the file's content, abstracted by its JSON parse
result — `Sum.inl j` for text that `json.load` parses to `j`, `Sum.inr raw`
for text it rejects (e.g. a truncated write). -/
def CheckpointFS : Type := String → Option (JsonVal ⊕ String)

/-- Writing one file. -/
def CheckpointFS.update (fs : CheckpointFS) (k : String) (v : JsonVal ⊕ String) :
    CheckpointFS := fun k2 => if k2 = k then some v else fs k2

/-- `json.load` on a file's content. -/
def jsonLoad : JsonVal ⊕ String → Option JsonVal
  | .inl j => some j
  | .inr _ => none

/-- `CheckpointManager.save_checkpoint` at wall-clock time `now`.
`cid` models `_generate_checkpoint_id` — `hashlib.md5(name).hexdigest()[:16]`,
a fixed pure function of the scraper name whose hexadecimal internals play
no role here, so it is a parameter.  The method stamps
`checkpoint.last_updated = datetime.now()` (mutating its argument), writes
`json.dump(checkpoint.to_dict())` to the single file `{cid name}.json`, and
returns the checkpoint id; the updated store, mutated checkpoint and id are
returned. -/
def CheckpointManager.save_checkpoint (cid : String → String) (fs : CheckpointFS)
    (scraper_name : String) (c : Checkpoint) (now : ℕ) :
    CheckpointFS × Checkpoint × String :=
  let c2 := { c with last_updated := some now }
  (fs.update (cid scraper_name) (.inl c2.to_dict), c2, cid scraper_name)

/-- The externally visible on-disk states during `save_checkpoint`:
`open(filepath, 'w')` first truncates the file to the empty text, then
`json.dump` writes the new document (buffered writes may expose further
partial raw states in between; the truncated state is enough to decide
atomicity).  A crash leaves the file in one of these states. -/
def CheckpointManager.save_checkpoint_trace (cid : String → String)
    (fs : CheckpointFS) (scraper_name : String) (c : Checkpoint) (now : ℕ) :
    List CheckpointFS :=
  [fs,
   fs.update (cid scraper_name) (.inr ""),
   (CheckpointManager.save_checkpoint cid fs scraper_name c now).1]

/-- `CheckpointManager.load_checkpoint`: `None` when the file does not
exist; otherwise `json.load` + `Checkpoint.from_dict` inside a
`try/except Exception` that returns `None` on any failure.  The store is
returned unchanged — the method only reads. -/
def CheckpointManager.load_checkpoint (cid : String → String) (fs : CheckpointFS)
    (scraper_name : String) : Option Checkpoint × CheckpointFS :=
  match fs (cid scraper_name) with
  | none => (none, fs)
  | some content => ((jsonLoad content).bind Checkpoint.from_dict, fs)

/-- A stored record is corrupt when the file exists but does not parse and
deserialize to a checkpoint. -/
def corruptAt (fs : CheckpointFS) (file : String) : Prop :=
  ∃ content, fs file = some content ∧ (jsonLoad content).bind Checkpoint.from_dict = none

/-- Claim C8: `save_checkpoint` then `load_checkpoint` for the same job
returns a checkpoint equal to the saved one in every field except
`last_updated`, and the returned `last_updated` is at least any timestamp
`t0` taken before the save (the clock being monotone, `t0 ≤ now`). -/
theorem checkpoint_save_load_roundtrip (cid : String → String) (fs : CheckpointFS)
    (name : String) (c : Checkpoint) (t0 now : ℕ) (h : t0 ≤ now) :
    ∃ lc, (CheckpointManager.load_checkpoint cid
        (CheckpointManager.save_checkpoint cid fs name c now).1 name).1 = some lc ∧
      lc.scraper_name = c.scraper_name ∧
      lc.checkpoint_type = c.checkpoint_type ∧
      lc.value = c.value ∧
      lc.total_items = c.total_items ∧
      lc.scraped_items = c.scraped_items ∧
      lc.metadata = c.metadata ∧
      ∃ d, lc.last_updated = some d ∧ t0 ≤ d := by
  refine ⟨{ c with last_updated := some now }, ?_, rfl, rfl, rfl, rfl, rfl, rfl,
    now, rfl, h⟩
  simp [CheckpointManager.load_checkpoint, CheckpointManager.save_checkpoint,
    CheckpointFS.update, jsonLoad, Checkpoint.from_dict_to_dict]

/-- Witness for C8 on a concrete store and checkpoint, saved at time 9 with
pre-save timestamp 5. -/
theorem checkpoint_save_load_roundtrip_witness :
    ∃ lc, (CheckpointManager.load_checkpoint (fun s => s)
        (CheckpointManager.save_checkpoint (fun s => s) (fun _ => none) "job"
          { scraper_name := .str "job", checkpoint_type := .str "page",
            value := .num 3, total_items := .num 10, scraped_items := .num 4 }
          9).1 "job").1 = some lc ∧
      lc.scraper_name = JsonVal.str "job" ∧
      lc.checkpoint_type = JsonVal.str "page" ∧
      lc.value = JsonVal.num 3 ∧
      lc.total_items = JsonVal.num 10 ∧
      lc.scraped_items = JsonVal.num 4 ∧
      lc.metadata = JsonVal.null ∧
      ∃ d, lc.last_updated = some d ∧ 5 ≤ d := by
  exact checkpoint_save_load_roundtrip (fun s => s) (fun _ => none) "job"
    { scraper_name := .str "job", checkpoint_type := .str "page",
      value := .num 3, total_items := .num 10, scraped_items := .num 4 }
    5 9 (by norm_num)

/-- The concrete pre-existing record used for the C3 counterexample. -/
def cpExOld : Checkpoint :=
  { scraper_name := .str "job", checkpoint_type := .str "page", value := .num 1 }

/-- The checkpoint being saved over it. -/
def cpExNew : Checkpoint :=
  { scraper_name := .str "job", checkpoint_type := .str "page", value := .num 2 }

/-- A store holding a valid record for the job. -/
def fsEx : CheckpointFS := CheckpointFS.update (fun _ => none) "job" (.inl cpExOld.to_dict)

/-- The on-disk states of saving `cpExNew` over it. -/
def saveTraceEx : List CheckpointFS :=
  CheckpointManager.save_checkpoint_trace (fun s => s) fsEx "job" cpExNew 7

/-- Counterexample to claim C3: `save_checkpoint` writes with
`open(filepath, 'w')` followed by `json.dump` — no write-then-rename — so a
crash between the truncation and the write leaves the record corrupt.
Concretely: before the save the stored record is intact; at the intermediate
trace state the file holds the empty text, which neither `json.load` nor
`Checkpoint.from_dict` accepts. -/
theorem checkpoint_save_not_atomic_counterexample :
    ¬ corruptAt (saveTraceEx.get ⟨0, by norm_num [saveTraceEx,
        CheckpointManager.save_checkpoint_trace]⟩) "job" ∧
    corruptAt (saveTraceEx.get ⟨1, by norm_num [saveTraceEx,
        CheckpointManager.save_checkpoint_trace]⟩) "job" := by
  constructor
  · rintro ⟨content, hc, hparse⟩
    have hcontent : content = .inl cpExOld.to_dict := by
      have hfs : fsEx "job" = some (.inl cpExOld.to_dict) := by
        simp [fsEx, CheckpointFS.update]
      have : saveTraceEx.get ⟨0, by norm_num [saveTraceEx,
          CheckpointManager.save_checkpoint_trace]⟩ = fsEx := rfl
      rw [this, hfs] at hc
      exact (Option.some_inj.mp hc).symm
    rw [hcontent] at hparse
    simp [jsonLoad, Checkpoint.from_dict_to_dict] at hparse
  · refine ⟨.inr "", ?_, rfl⟩
    have : saveTraceEx.get ⟨1, by norm_num [saveTraceEx,
        CheckpointManager.save_checkpoint_trace]⟩
        = fsEx.update "job" (.inr "") := rfl
    rw [this]
    simp [CheckpointFS.update]

/-- Claim C3, amended: for every job name, `save_checkpoint` keeps exactly
one record, in the single file addressed by the stable hash of the name
(all other files are untouched, and the target file holds exactly the new
record), but it overwrites the prior record in place by truncating and
rewriting the file rather than atomically (write-then-rename): the on-disk
trace is truncate-to-empty followed by the full write, so a crash between
the two steps leaves a truncated, unparseable record. -/
theorem checkpoint_save_single_record_nonatomic (cid : String → String)
    (fs : CheckpointFS) (name : String) (c : Checkpoint) (now : ℕ) :
    (CheckpointManager.save_checkpoint cid fs name c now).2.2 = cid name ∧
    (∀ k, k ≠ cid name →
      (CheckpointManager.save_checkpoint cid fs name c now).1 k = fs k) ∧
    (CheckpointManager.save_checkpoint cid fs name c now).1 (cid name)
      = some (.inl ({ c with last_updated := some now }).to_dict) ∧
    CheckpointManager.save_checkpoint_trace cid fs name c now
      = [fs, fs.update (cid name) (.inr ""),
         fs.update (cid name) (.inl ({ c with last_updated := some now }).to_dict)] := by
  refine ⟨rfl, ?_, ?_, rfl⟩
  · intro k hk
    simp [CheckpointManager.save_checkpoint, CheckpointFS.update, hk]
  · simp [CheckpointManager.save_checkpoint, CheckpointFS.update]

/-- Witness for the amended C3 at a concrete store, name and checkpoint. -/
theorem checkpoint_save_single_record_nonatomic_witness :
    (CheckpointManager.save_checkpoint (fun s => s) fsEx "job" cpExNew 7).2.2
      = "job" ∧
    (CheckpointManager.save_checkpoint (fun s => s) fsEx "job" cpExNew 7).1 "other"
      = fsEx "other" ∧
    (CheckpointManager.save_checkpoint (fun s => s) fsEx "job" cpExNew 7).1 "job"
      = some (.inl ({ cpExNew with last_updated := some 7 }).to_dict) := by
  have h := checkpoint_save_single_record_nonatomic (fun s => s) fsEx "job" cpExNew 7
  exact ⟨h.1, h.2.1 "other" (by simp), h.2.2.1⟩

/-- Claim C10: `load_checkpoint` returns `None` rather than raising, both
when no record exists for the job and when the stored record is corrupt
(text `json.load` rejects) or deserializes to no checkpoint (wrong shape,
missing required fields, malformed `last_updated`); in every case the store
is returned unchanged.  The final three conjuncts exhibit malformed
documents that `from_dict` rejects. -/
theorem load_checkpoint_none_on_missing_or_corrupt (cid : String → String)
    (fs : CheckpointFS) (name : String) :
    (fs (cid name) = none →
      CheckpointManager.load_checkpoint cid fs name = (none, fs)) ∧
    (∀ raw, fs (cid name) = some (.inr raw) →
      CheckpointManager.load_checkpoint cid fs name = (none, fs)) ∧
    (∀ j, fs (cid name) = some (.inl j) → Checkpoint.from_dict j = none →
      CheckpointManager.load_checkpoint cid fs name = (none, fs)) ∧
    Checkpoint.from_dict (.arr []) = none ∧
    Checkpoint.from_dict (.obj [("scraper_name", .str "x")]) = none ∧
    Checkpoint.from_dict (.obj [("scraper_name", .str "x"),
      ("checkpoint_type", .str "page"), ("value", .num 1),
      ("last_updated", .str "not-a-timestamp")]) = none := by
  refine ⟨?_, ?_, ?_, rfl, ?_, ?_⟩
  · intro h
    simp [CheckpointManager.load_checkpoint, h]
  · intro raw h
    simp [CheckpointManager.load_checkpoint, h, jsonLoad]
  · intro j h hj
    simp [CheckpointManager.load_checkpoint, h, jsonLoad, hj]
  · simp +decide [Checkpoint.from_dict, lookupKey, checkpointKeys]
  · simp +decide [Checkpoint.from_dict, lookupKey, checkpointKeys, parseLastUpdated,
      jsonTruthy, timeOfIso]

/-- Witness for C10: loading a job whose stored file holds unparseable text
yields `None` and leaves the store unchanged. -/
theorem load_checkpoint_none_witness :
    CheckpointManager.load_checkpoint (fun s => s)
      (CheckpointFS.update (fun _ => none) "job" (.inr "garbage")) "job"
      = (none, CheckpointFS.update (fun _ => none) "job" (.inr "garbage")) := by
  exact (load_checkpoint_none_on_missing_or_corrupt (fun s => s)
      (CheckpointFS.update (fun _ => none) "job" (.inr "garbage")) "job").2.1
    "garbage" (by simp [CheckpointFS.update])
